import Mathlib

/-!
Verification development for `scripts/download_pge_ica_timeseries.py`.

The script drives a browser to download one zip archive per feeder id,
extracts the contained `<id>.csv` into a dataframe, deletes the archive and
writes the dataframe to `<id>.csv` in the output directory; a driver loop
runs this worker over every id whose output file is not yet present.

The embedding below models the script's control flow over explicit
environments: each `while i < tries` retry loop becomes a recursive function
with an iteration budget (`none` means the loop has not exited within the
budget, so a budget of `tries + 1` covers every run of a loop whose counter
advances), and the outcome of each externally observable action (browser
navigation, archive open, file removal, field lookup) is an oracle indexed
by the attempt number.  File names are `List Char`; directories are lists of
names.  The subtle points of the source are kept as written: the cleanup and
save steps are guarded by Python's `~badzip` (bitwise complement of a bool,
which is truthy for both `True` and `False`), and the inventory scanner uses
`str.replace`, which replaces every occurrence of its pattern.  The script's
configured example paths are Windows paths, so the scanner model uses the
Windows join (`cwd ++ "\" ++ name`) that `glob` produces there, which is what
the source's `replace(os.getcwd() + "\\", "")` line expects.
-/

/-- Retry bound from the user-set parameter section of the script: `tries = 20`. -/
def tries : Nat := 20

/-- The tabular content read out of an archive (`pd.read_csv`), carried opaquely. -/
abbrev Table := List (List Char)

/-- The characters of the literal `".csv"`. -/
def csvExt : List Char := ['.', 'c', 's', 'v']

/-- The characters of the literal `".zip"`. -/
def zipExt : List Char := ['.', 'z', 'i', 'p']

/-- A single backslash, the Windows path separator. -/
def bslash : List Char := ['\\']

/-- Name of the archive the browser drops for a feeder id: `id + ".zip"`. -/
def zipName (id : List Char) : List Char := id ++ zipExt

/-- Name of the output file the worker writes for a feeder id: `id + ".csv"`. -/
def csvName (id : List Char) : List Char := id ++ csvExt

/-- Python `int(b)` for a bool. -/
def pyBoolToInt (b : Bool) : Int := if b then 1 else 0

/-- Python's bitwise complement on integers: `~n = -n - 1`. -/
def pyBitNot (n : Int) : Int := -n - 1

/-- Python truthiness of an integer: nonzero is truthy. -/
def pyTruthy (n : Int) : Bool := decide (n ≠ 0)

/-- The guard `if ~badzip:` from the source: the bool is coerced to an int,
bitwise-complemented, and the result used for its truthiness. -/
def notGuard (badzip : Bool) : Bool := pyTruthy (pyBitNot (pyBoolToInt badzip))

/-- Outcome of one attempt to open the archive and read its csv
(`ZipFile(...)` then `pd.read_csv(zf.open(id + ".csv"))`). -/
inductive OpenOutcome where
  | fileNotFound
  | badZipFile
  | ok (t : Table)
deriving DecidableEq

/-- External environment seen by one `process_zip` call: the outcome of each
attempt of each of its three retry loops, indexed by the loop counter. -/
structure WorkerEnv where
  /-- Fetch attempt `i`: `true` if `driver.get` returns, `false` if it raises
  `NoSuchWindowException`. -/
  windowOk : Nat → Bool
  /-- Extraction attempt `i`: outcome of opening the archive and reading the csv. -/
  openOutcome : Nat → OpenOutcome
  /-- Deletion attempt `i`: `true` if `os.remove` finds (and removes) the
  archive, `false` if it raises `FileNotFoundError`. -/
  removePresent : Nat → Bool

/-- The fetch loop (`while i < tries: try driver.get ... except NoSuchWindowException`).
Arguments: current counter `i`, remaining iteration budget.  `some true` means
the loop left via `break` (navigation succeeded), `some false` that it
exhausted `i < tries`, `none` that the budget ran out before the loop exited. -/
def fetchRun (env : WorkerEnv) : Nat → Nat → Option Bool
  | _, 0 => none
  | i, b + 1 =>
    if i < tries then
      if env.windowOk i then some true
      else fetchRun env (i + 1) b
    else some false

/-- The extraction loop.  Returns the pair `(df, badzip)` at loop exit:
`df` is the table bound by a successful read (the variable stays unbound,
`none`, otherwise), and `badzip` is the flag set by the `BadZipFile` handler,
which also sets `i = tries` so the loop exits at once.  `FileNotFoundError`
increments the counter and retries. -/
def extractRun (env : WorkerEnv) : Nat → Nat → Option (Option Table × Bool)
  | _, 0 => none
  | i, b + 1 =>
    if i < tries then
      match env.openOutcome i with
      | OpenOutcome.ok t => some (some t, false)
      | OpenOutcome.fileNotFound => extractRun env (i + 1) b
      | OpenOutcome.badZipFile => some (none, true)
    else some (none, false)

/-- The deletion loop (`while i < tries: if ~badzip: try os.remove ...`).
Returns whether the archive was removed.  When the `~badzip` guard is falsy
the body is skipped and the counter does not advance, so only the budget
decreases; `none` records that the loop did not exit within the budget. -/
def deleteRun (env : WorkerEnv) (badzip : Bool) : Nat → Nat → Option Bool
  | _, 0 => none
  | i, b + 1 =>
    if i < tries then
      if notGuard badzip then
        if env.removePresent i then some true
        else deleteRun env badzip (i + 1) b
      else deleteRun env badzip i b
    else some false

/-- Exit value of the fetch loop started at `i = 0`, as `process_zip` runs it. -/
def fetchResult (env : WorkerEnv) : Bool :=
  (fetchRun env 0 (tries + 1)).getD false

/-- Exit value `(df, badzip)` of the extraction loop started at `i = 0`. -/
def extractResult (env : WorkerEnv) : Option Table × Bool :=
  (extractRun env 0 (tries + 1)).getD (none, false)

/-- Exit value of the deletion loop started at `i = 0`. -/
def deleteResult (env : WorkerEnv) (badzip : Bool) : Bool :=
  (deleteRun env badzip 0 (tries + 1)).getD false

/-- What the final `if ~badzip: df.to_csv(id + ".csv", index=False)` does. -/
inductive SaveOutcome where
  /-- The guard was truthy and `df` was bound: the table is written to `<id>.csv`. -/
  | written (t : Table)
  /-- The guard was truthy but `df` was never bound: evaluating `df` raises
  `NameError` (an `UnboundLocalError`), which escapes `process_zip`. -/
  | nameErr
  /-- The guard was falsy: the save statement is skipped.  (Unreachable for a
  bool `badzip`, since `~badzip` is always truthy; kept to mirror the source.) -/
  | skipped
deriving DecidableEq

/-- Observable effect of one `process_zip` call. -/
structure WorkerResult where
  /-- Whether the fetch loop left via a successful `driver.get`. -/
  fetched : Bool
  /-- Whether the deletion loop removed `<id>.zip` from the download directory. -/
  deleted : Bool
  /-- What the save step did. -/
  save : SaveOutcome
deriving DecidableEq

/-- The worker `process_zip(driver, data_url, id)`: fetch loop, extraction
loop, deletion loop (guarded by `~badzip`), then the guarded save step. -/
def process_zip (env : WorkerEnv) : WorkerResult :=
  let fetched := fetchResult env
  let ext := extractResult env
  let deleted := deleteResult env ext.2
  { fetched := fetched
    deleted := deleted
    save :=
      if notGuard ext.2 then
        match ext.1 with
        | some t => SaveOutcome.written t
        | none => SaveOutcome.nameErr
      else SaveOutcome.skipped }

/-- Whether the call raised `NameError` out of its save step. -/
def raisedNameError (r : WorkerResult) : Bool :=
  match r.save with
  | SaveOutcome.nameErr => true
  | _ => false

/-- The two directories the script touches: the browser download directory
(`download_dir`, archive names) and the output directory (`df_dir`, which is
also the process working directory after `os.chdir(df_dir)`), holding the
written csv files with their tabular content. -/
structure FS where
  downloadDir : List (List Char)
  destDir : List (List Char × Table)
deriving DecidableEq

/-- Effect of a `process_zip` call for `id` on the two directories: the
deletion loop removes `<id>.zip` from the download directory when it
succeeds, and the save step writes (creates or overwrites) `<id>.csv` in the
output directory only when it reached `df.to_csv` with `df` bound; a
`NameError` is raised before anything is written. -/
def applyWorker (id : List Char) (fs : FS) (r : WorkerResult) : FS :=
  { downloadDir :=
      if r.deleted then fs.downloadDir.filter (fun n => n ≠ zipName id) else fs.downloadDir
    destDir :=
      match r.save with
      | SaveOutcome.written t =>
          (csvName id, t) :: fs.destDir.filter (fun p => p.1 ≠ csvName id)
      | _ => fs.destDir }

/-- Python `s.replace(pat, rep)` for a nonempty pattern: every non-overlapping
occurrence of `pat` in `s`, scanned left to right, is replaced by `rep`.
The first argument is recursion fuel: each step consumes at least one
character of `s`, so fuel `s.length` (what `replaceAll` passes) always
suffices and the fuel-exhausted branch is only reached at the empty list.
(The source only calls `replace` with the nonempty patterns
`os.getcwd() + "\\"` and `".csv"`; an empty pattern is returned unchanged.) -/
def replaceAllAux (pat rep : List Char) : Nat → List Char → List Char
  | 0, s => s
  | _ + 1, [] => []
  | f + 1, c :: s =>
    if !pat.isEmpty && pat.isPrefixOf (c :: s) then
      rep ++ replaceAllAux pat rep f ((c :: s).drop pat.length)
    else
      c :: replaceAllAux pat rep f s

/-- Python `s.replace(pat, rep)` (nonempty `pat`). -/
def replaceAll (pat rep s : List Char) : List Char := replaceAllAux pat rep s.length s

/-- Whether `pat` occurs as a contiguous sublist of `s`. -/
def containsSub (pat s : List Char) : Bool :=
  (List.range (s.length + 1)).any (fun k => pat.isPrefixOf (s.drop k))

/-- The inventory scanner `get_csv_list()`: `glob.glob(os.getcwd() + "/*.csv")`
lists the non-hidden files of the working directory whose names match
`*.csv` (matched case-sensitively here; the worker always writes the
lower-case extension), joined to the directory as `cwd ++ "\" ++ name` (the
Windows join the configured paths imply); then every occurrence of
`os.getcwd() + "\"` and every occurrence of `".csv"` is removed from each
entry by `str.replace`. -/
def get_csv_list (cwd : List Char) (files : List (List Char)) : List (List Char) :=
  let globbed :=
    (files.filter (fun f => csvExt.isSuffixOf f && f.take 1 ≠ ['.'])).map
      (fun f => cwd ++ bslash ++ f)
  let noDirs := globbed.map (fun sub => replaceAll (cwd ++ bslash) [] sub)
  noDirs.map (fun sub => replaceAll csvExt [] sub)

/-- The driver's missing set, `list(set(feeder_id_list) - set(csvs_dl))`,
modelled as an order-preserving filter of the universe list (Python set
iteration order is arbitrary; the claims treat the result as a set). -/
def missingOf (univ : List (List Char)) (cwd : List Char) (fs : FS) : List (List Char) :=
  univ.filter (fun id => !((get_csv_list cwd (fs.destDir.map Prod.fst)).contains id))

/-- The driver's `for id in csvs_missing: process_zip(...)`.  An exception
raised by a worker call (the `NameError` of the save step) propagates through
the loop and aborts the run: the error value carries the failing id and the
filesystem at that point (the deletion effect of the failing call included,
since deletion precedes the save step). -/
def runIds (envOf : List Char → WorkerEnv) :
    List (List Char) → FS → Except (List Char × FS) FS
  | [], fs => Except.ok fs
  | id :: rest, fs =>
    let r := process_zip (envOf id)
    let fs2 := applyWorker id fs r
    if raisedNameError r then Except.error (id, fs2) else runIds envOf rest fs2

/-- One full acquisition pass of the `if download_csvs:` block, after login:
scan, compute the missing set, run the worker over it, rescan and report.
`Except.ok` carries the final filesystem and the printed final missing list;
`Except.error` means the run was aborted by an escaping worker exception,
before the final report. -/
def runPass (envOf : List Char → WorkerEnv) (univ : List (List Char))
    (cwd : List Char) (fs : FS) : Except (List Char × FS) (FS × List (List Char)) :=
  match runIds envOf (missingOf univ cwd fs) fs with
  | Except.error e => Except.error e
  | Except.ok fs2 => Except.ok (fs2, missingOf univ cwd fs2)

/-- External environment of one `login` call. -/
structure LoginEnv where
  /-- Attempt `i`: `true` if the three element lookups and the submit click
  succeed, `false` if a lookup raises `NoSuchElementException`. -/
  fieldsReady : Nat → Bool

/-- The login retry loop (`while i < tries: try fill-and-submit; break
except NoSuchElementException: i += 1; sleep`).  Returns the pair
(left via `break` at this attempt?, counter at exit); the counter at exit is
the number of failed attempts, each of which executed `time.sleep(2)`. -/
def loginRun (env : LoginEnv) : Nat → Nat → Option (Option Nat × Nat)
  | _, 0 => none
  | i, b + 1 =>
    if i < tries then
      if env.fieldsReady i then some (some i, i)
      else loginRun env (i + 1) b
    else some (none, i)

/-- Observable outcome of `login`. -/
structure LoginReturn where
  /-- `some i` when the credentials were filled and submitted at attempt `i`;
  `none` when the bound was exhausted (the function returns with no signal). -/
  submittedAt : Option Nat
  /-- Number of `time.sleep(2)` calls executed in the exception handler. -/
  retrySleeps : Nat
  /-- The unconditional `time.sleep(3)` executed before returning. -/
  finalPause : Bool
deriving DecidableEq

/-- The authenticator `login(driver, login_url, username, password)`. -/
def login (env : LoginEnv) : LoginReturn :=
  let r := (loginRun env 0 (tries + 1)).getD (none, tries)
  { submittedAt := r.1, retrySleeps := r.2, finalPause := true }

/-! ### Helper lemmas about the retry loops -/

theorem notGuard_eq_true (b : Bool) : notGuard b = true := by
  cases b <;> rfl

theorem fetchRun_isSome (env : WorkerEnv) :
    ∀ b i, i ≤ tries → i + b = tries + 1 → (fetchRun env i b).isSome = true := by
  intro b
  induction b with
  | zero => intro i hi hsum; omega
  | succ b ih =>
    intro i hi hsum
    rw [fetchRun]
    by_cases h : i < tries
    · rw [if_pos h]
      cases hw : env.windowOk i
      · simp only [Bool.false_eq_true, if_false]
        exact ih (i + 1) (by omega) (by omega)
      · rfl
    · rw [if_neg h]; rfl

theorem extractRun_isSome (env : WorkerEnv) :
    ∀ b i, i ≤ tries → i + b = tries + 1 → (extractRun env i b).isSome = true := by
  intro b
  induction b with
  | zero => intro i hi hsum; omega
  | succ b ih =>
    intro i hi hsum
    rw [extractRun]
    by_cases h : i < tries
    · rw [if_pos h]
      cases ho : env.openOutcome i
      · exact ih (i + 1) (by omega) (by omega)
      · rfl
      · rfl
    · rw [if_neg h]; rfl

theorem deleteRun_isSome (env : WorkerEnv) (badzip : Bool) :
    ∀ b i, i ≤ tries → i + b = tries + 1 → (deleteRun env badzip i b).isSome = true := by
  intro b
  induction b with
  | zero => intro i hi hsum; omega
  | succ b ih =>
    intro i hi hsum
    rw [deleteRun]
    by_cases h : i < tries
    · rw [if_pos h, notGuard_eq_true badzip]
      simp only [if_true]
      cases hr : env.removePresent i
      · simp only [Bool.false_eq_true, if_false]
        exact ih (i + 1) (by omega) (by omega)
      · rfl
    · rw [if_neg h]; rfl

theorem loginRun_isSome (env : LoginEnv) :
    ∀ b i, i ≤ tries → i + b = tries + 1 → (loginRun env i b).isSome = true := by
  intro b
  induction b with
  | zero => intro i hi hsum; omega
  | succ b ih =>
    intro i hi hsum
    rw [loginRun]
    by_cases h : i < tries
    · rw [if_pos h]
      cases hf : env.fieldsReady i
      · simp only [Bool.false_eq_true, if_false]
        exact ih (i + 1) (by omega) (by omega)
      · rfl
    · rw [if_neg h]; rfl

/-- In the extraction loop, the `badzip` flag is only ever set on the path
that leaves the loop at once with `df` still unbound. -/
theorem extractRun_badzip_unbound (env : WorkerEnv) :
    ∀ b i r, extractRun env i b = some r → r.2 = true → r.1 = none := by
  intro b
  induction b with
  | zero => intro i r h; simp [extractRun] at h
  | succ b ih =>
    intro i r h hr
    rw [extractRun] at h
    by_cases hi : i < tries
    · rw [if_pos hi] at h
      cases ho : env.openOutcome i <;> rw [ho] at h
      · exact ih (i + 1) r h hr
      · have hre : r = (none, true) := by simpa using h.symm
        rw [hre]
      · rename_i t
        have hre : r = (some t, false) := by simpa using h.symm
        rw [hre] at hr; simp at hr
    · rw [if_neg hi] at h
      have hre : r = (none, false) := by simpa using h.symm
      rw [hre] at hr; simp at hr

/-- The extraction-loop exit value as `process_zip` sees it. -/
theorem extractResult_spec (env : WorkerEnv) :
    extractRun env 0 (tries + 1) = some (extractResult env) := by
  have h := extractRun_isSome env (tries + 1) 0 (by omega) (by omega)
  obtain ⟨r, hr⟩ := Option.isSome_iff_exists.mp h
  rw [extractResult, hr, Option.getD_some]

/-- If the extraction loop exits with the `badzip` flag set, the save step
reaches `df.to_csv` (the `~badzip` guard is truthy) with `df` unbound. -/
theorem process_zip_nameErr_of_badzip (env : WorkerEnv)
    (h : (extractResult env).2 = true) :
    (process_zip env).save = SaveOutcome.nameErr := by
  have hval := extractRun_badzip_unbound env (tries + 1) 0 (extractResult env)
    (extractResult_spec env) h
  rw [process_zip]
  simp only [notGuard_eq_true, if_true, hval]

/-- If the extraction loop never binds `df`, the save step raises `NameError`. -/
theorem process_zip_nameErr_of_unbound (env : WorkerEnv)
    (h : (extractResult env).1 = none) :
    (process_zip env).save = SaveOutcome.nameErr := by
  rw [process_zip]
  simp only [notGuard_eq_true, if_true, h]

/-- If the extraction loop binds `df` to `t`, the save step writes `t`. -/
theorem process_zip_written_of_bound (env : WorkerEnv) (t : Table)
    (h : (extractResult env).1 = some t) :
    (process_zip env).save = SaveOutcome.written t := by
  rw [process_zip]
  simp only [notGuard_eq_true, if_true, h]

/-- If every attempt up to the bound raises `FileNotFoundError`, the
extraction loop exhausts its counter with `df` unbound and `badzip` clear. -/
theorem extractRun_all_fnf (env : WorkerEnv)
    (h : ∀ j, j < tries → env.openOutcome j = OpenOutcome.fileNotFound) :
    ∀ b i, i ≤ tries → i + b = tries + 1 → extractRun env i b = some (none, false) := by
  intro b
  induction b with
  | zero => intro i hi hsum; omega
  | succ b ih =>
    intro i hi hsum
    rw [extractRun]
    by_cases hlt : i < tries
    · rw [if_pos hlt, h i hlt]
      exact ih (i + 1) (by omega) (by omega)
    · rw [if_neg hlt]

/-- If attempts before `k` raise `FileNotFoundError` and attempt `k` raises
`BadZipFile`, the loop exits at attempt `k` with `(none, true)`. -/
theorem extractRun_bad_at (env : WorkerEnv) (k : Nat) (hk : k < tries)
    (hfnf : ∀ j, j < k → env.openOutcome j = OpenOutcome.fileNotFound)
    (hbad : env.openOutcome k = OpenOutcome.badZipFile) :
    ∀ b i, i ≤ k → i + b = tries + 1 → extractRun env i b = some (none, true) := by
  intro b
  induction b with
  | zero => intro i hi hsum; omega
  | succ b ih =>
    intro i hi hsum
    rw [extractRun, if_pos (by omega : i < tries)]
    rcases Nat.eq_or_lt_of_le hi with rfl | hlt
    · rw [hbad]
    · rw [hfnf i hlt]
      exact ih (i + 1) (by omega) (by omega)

/-- If the archive is found on the first deletion attempt, the loop deletes it. -/
theorem deleteRun_first_present (env : WorkerEnv) (badzip : Bool) (b : Nat)
    (h : env.removePresent 0 = true) :
    deleteRun env badzip 0 (b + 1) = some true := by
  rw [deleteRun, if_pos (by rw [tries]; omega : 0 < tries), notGuard_eq_true badzip]
  simp only [if_true, h]

/-! ### Concrete environments used in the closed theorems -/

/-- A worker call whose archive is present but corrupt: every open attempt
raises `BadZipFile`, navigation succeeds, the archive file is on disk. -/
def envBadZip : WorkerEnv :=
  { windowOk := fun _ => true
    openOutcome := fun _ => OpenOutcome.badZipFile
    removePresent := fun _ => true }

/-- A worker call whose archive never appears: every open attempt and every
removal attempt raises `FileNotFoundError`. -/
def envNeverAppears : WorkerEnv :=
  { windowOk := fun _ => true
    openOutcome := fun _ => OpenOutcome.fileNotFound
    removePresent := fun _ => false }

/-- A fully successful worker call: the archive opens on the first attempt
and yields a table, and the archive file is present for deletion. -/
def envGood (t : Table) : WorkerEnv :=
  { windowOk := fun _ => true
    openOutcome := fun _ => OpenOutcome.ok t
    removePresent := fun _ => true }

/-! ### Claim theorems: the worker -/

/-- Claim C1: the spec states that `process_zip` never raises past its own
boundary and that a failing feeder (a corrupt archive included) is silently
skipped.  The code contradicts this: with a corrupt archive the `badzip`
flag is set with `df` never bound, yet the save step still runs because its
guard is the always-truthy `~badzip`, so evaluating `df` raises a `NameError`
that escapes the worker. -/
theorem c1_corrupt_archive_raises :
    raisedNameError (process_zip envBadZip) = true := rfl

/-- Claim C2: the spec states that deletion and saving happen if and only if
the archive was not marked corrupt, and that with the flag set no deletion is
attempted and no output written.  The code contradicts this: `~True` is `-2`,
which is truthy, so with `badzip = True` the deletion loop runs (and removes
the corrupt archive, present on disk) and the save statement is reached,
raising `NameError`. -/
theorem c2_badzip_still_deletes_and_saves :
    (process_zip envBadZip).deleted = true ∧
    (process_zip envBadZip).save = SaveOutcome.nameErr :=
  ⟨rfl, rfl⟩

/-- Claim C3: when the extraction phase signals a corrupt archive, no output
file for the identifier is created or overwritten: the save step raises
`NameError` before writing anything, so the destination directory is
unchanged by the invocation. -/
theorem c3_no_output_on_badzip (env : WorkerEnv) (id : List Char) (fs : FS)
    (h : (extractResult env).2 = true) :
    (applyWorker id fs (process_zip env)).destDir = fs.destDir := by
  rw [applyWorker]
  rw [process_zip_nameErr_of_badzip env h]

theorem c3_no_output_on_badzip_witness :
    (extractResult envBadZip).2 = true ∧
    (applyWorker ['A'] { downloadDir := [zipName ['A']], destDir := [] }
      (process_zip envBadZip)).destDir = [] :=
  ⟨rfl, c3_no_output_on_badzip envBadZip ['A']
    { downloadDir := [zipName ['A']], destDir := [] } rfl⟩

/-- Claim C5: after a successful worker invocation for `id` — the archive
was downloaded, opened, and its `<id>.csv` read with no bad-archive
condition — the file `<id>.csv` is in the destination directory and no
`<id>.zip` remains in the download directory (the deletion loop removes it;
the archive it has just opened is present, so the first removal succeeds). -/
theorem c5_success_invariant (env : WorkerEnv) (id : List Char) (fs : FS) (t : Table)
    (hext : extractResult env = (some t, false))
    (hrem : env.removePresent 0 = true) :
    (csvName id, t) ∈ (applyWorker id fs (process_zip env)).destDir ∧
    zipName id ∉ (applyWorker id fs (process_zip env)).downloadDir := by
  have hsave : (process_zip env).save = SaveOutcome.written t :=
    process_zip_written_of_bound env t (by rw [hext])
  have hdel : (process_zip env).deleted = true := by
    rw [process_zip]
    simp only [deleteResult]
    rw [deleteRun_first_present env (extractResult env).2 tries hrem, Option.getD_some]
  constructor
  · rw [applyWorker, hsave]
    exact List.mem_cons_self _ _
  · rw [applyWorker, hdel]
    simp only [if_true]
    intro hmem
    have := (List.mem_filter.mp hmem).2
    simp at this

theorem c5_success_invariant_witness :
    (extractResult (envGood [['1']]) = (some [['1']], false) ∧
      (envGood [['1']]).removePresent 0 = true) ∧
    ((csvName ['B'], [['1']]) ∈
        (applyWorker ['B'] { downloadDir := [zipName ['B']], destDir := [] }
          (process_zip (envGood [['1']]))).destDir ∧
      zipName ['B'] ∉
        (applyWorker ['B'] { downloadDir := [zipName ['B']], destDir := [] }
          (process_zip (envGood [['1']]))).downloadDir) :=
  ⟨⟨rfl, rfl⟩, c5_success_invariant (envGood [['1']]) ['B']
    { downloadDir := [zipName ['B']], destDir := [] } [['1']] rfl rfl⟩

/-- Claim C7: in the extraction phase a `BadZipFile` ends retrying at once:
if attempts before `k` raise `FileNotFoundError` and attempt `k` raises
`BadZipFile`, the loop exits at attempt `k` with the feeder marked failed
(`badzip = true`, `df` unbound), and the exit value is the same for every
environment that agrees with this one up to attempt `k` — no further open
attempt is made; a `FileNotFoundError`, by contrast, increments the counter
and retries up to the bound. -/
theorem c7_badzip_aborts_retries (env : WorkerEnv) (k : Nat) (hk : k < tries)
    (hfnf : ∀ j, j < k → env.openOutcome j = OpenOutcome.fileNotFound)
    (hbad : env.openOutcome k = OpenOutcome.badZipFile) :
    extractRun env 0 (tries + 1) = some (none, true) ∧
    ∀ env2 : WorkerEnv,
      (∀ j, j ≤ k → env2.openOutcome j = env.openOutcome j) →
      extractRun env2 0 (tries + 1) = some (none, true) := by
  refine ⟨extractRun_bad_at env k hk hfnf hbad (tries + 1) 0 (by omega) (by omega), ?_⟩
  intro env2 hag
  refine extractRun_bad_at env2 k hk ?_ ?_ (tries + 1) 0 (by omega) (by omega)
  · intro j hj
    rw [hag j (Nat.le_of_lt hj)]
    exact hfnf j hj
  · rw [hag k (Nat.le_refl k)]
    exact hbad

theorem c7_badzip_aborts_retries_witness :
    (0 < tries ∧ envBadZip.openOutcome 0 = OpenOutcome.badZipFile) ∧
    extractRun envBadZip 0 (tries + 1) = some (none, true) :=
  ⟨⟨by decide, rfl⟩,
    (c7_badzip_aborts_retries envBadZip 0 (by decide)
      (fun j hj => absurd hj (Nat.not_lt_zero j)) rfl).1⟩

/-- Claim C9: every retry loop in the worker exits within the `tries` bound
(budget `tries + 1` loop-guard evaluations always suffices).  In particular
the cleanup loop terminates because its guard `~badzip` — the integer bitwise
complement of a bool — is truthy for both `True` (`-2`) and `False` (`-1`),
so the loop body always executes and each iteration either breaks or
increments the counter; the guard-false branch, in which the counter would
not advance, is never taken. -/
theorem c9_worker_loops_terminate (env : WorkerEnv) (badzip : Bool) :
    notGuard badzip = true ∧
    (fetchRun env 0 (tries + 1)).isSome = true ∧
    (extractRun env 0 (tries + 1)).isSome = true ∧
    (deleteRun env badzip 0 (tries + 1)).isSome = true :=
  ⟨notGuard_eq_true badzip,
    fetchRun_isSome env (tries + 1) 0 (by omega) (by omega),
    extractRun_isSome env (tries + 1) 0 (by omega) (by omega),
    deleteRun_isSome env badzip (tries + 1) 0 (by omega) (by omega)⟩

/-- Claim C10: if the extraction phase exhausts all `tries` attempts with the
archive never appearing (every open raises `FileNotFoundError`), the worker
does not silently skip the feeder: `badzip` is still `False`, the truthy
`~badzip` guard lets control reach `df.to_csv`, and evaluating the never
bound `df` raises an unhandled `NameError`. -/
theorem c10_exhausted_extraction_raises (env : WorkerEnv)
    (h : ∀ i, i < tries → env.openOutcome i = OpenOutcome.fileNotFound) :
    raisedNameError (process_zip env) = true := by
  have hres : extractResult env = (none, false) := by
    rw [extractResult, extractRun_all_fnf env h (tries + 1) 0 (by omega) (by omega),
      Option.getD_some]
  rw [raisedNameError, process_zip_nameErr_of_unbound env (by rw [hres])]

theorem c10_exhausted_extraction_raises_witness :
    (∀ i, i < tries → envNeverAppears.openOutcome i = OpenOutcome.fileNotFound) ∧
    raisedNameError (process_zip envNeverAppears) = true :=
  ⟨fun _ _ => rfl, c10_exhausted_extraction_raises envNeverAppears (fun _ _ => rfl)⟩

/-! ### Claim theorems: the driver loop -/

/-- Per-feeder environments for the two-feeder scenario of C4: fetching `A`
yields a corrupt archive whose local file never materialises for deletion,
and `B` succeeds. -/
def envOfScenario : List Char → WorkerEnv := fun id =>
  if id = ['A'] then
    { windowOk := fun _ => true
      openOutcome := fun _ => OpenOutcome.badZipFile
      removePresent := fun _ => false }
  else envGood [['1']]

/-- Claim C4: the spec's scenario states that with universe `{A, B}`, `A`
corrupt and `B` succeeding, the run completes with only `B.csv` present and
the final missing report `["A"]`.  The code contradicts this: the worker
call for `A` raises `NameError` out of its save step, the exception
propagates through the driver's `for` loop, and the run aborts before the
final report is printed (with `A` processed first, `B` is never processed
and the output directory stays empty). -/
theorem c4_run_aborts_on_corrupt_feeder :
    runPass envOfScenario [['A'], ['B']] ['C', ':']
        { downloadDir := [], destDir := [] } =
      Except.error (['A'], { downloadDir := [], destDir := [] }) := rfl

/-! ### Claim theorems: the authenticator -/

/-- If a field lookup of some attempt before the bound succeeds, the login
loop leaves via `break` at the first such attempt. -/
theorem loginRun_submitted (env : LoginEnv) :
    ∀ b i j k, loginRun env i b = some (some j, k) →
      j < tries ∧ env.fieldsReady j = true ∧ k = j := by
  intro b
  induction b with
  | zero => intro i j k h; simp [loginRun] at h
  | succ b ih =>
    intro i j k h
    rw [loginRun] at h
    by_cases hi : i < tries
    · rw [if_pos hi] at h
      cases hf : env.fieldsReady i <;> rw [hf] at h
      · simp only [Bool.false_eq_true, if_false] at h
        exact ih (i + 1) j k h
      · simp only [if_true, Option.some.injEq, Prod.mk.injEq] at h
        rw [← h.1, ← h.2]
        exact ⟨hi, hf, rfl⟩
    · rw [if_neg hi] at h
      simp at h

/-- If every attempt up to the bound fails, the login loop exhausts its
counter and exits the `while` guard with nothing submitted. -/
theorem loginRun_all_fail (env : LoginEnv)
    (h : ∀ j, j < tries → env.fieldsReady j = false) :
    ∀ b i, i ≤ tries → i + b = tries + 1 → loginRun env i b = some (none, tries) := by
  intro b
  induction b with
  | zero => intro i hi hsum; omega
  | succ b ih =>
    intro i hi hsum
    rw [loginRun]
    by_cases hlt : i < tries
    · rw [if_pos hlt, h i hlt]
      simp only [Bool.false_eq_true, if_false]
      exact ih (i + 1) (by omega) (by omega)
    · rw [if_neg hlt]
      have : i = tries := by omega
      rw [this]

/-- The login-loop exit value as `login` sees it. -/
theorem loginResult_spec (env : LoginEnv) :
    loginRun env 0 (tries + 1) =
      some ((login env).submittedAt, (login env).retrySleeps) := by
  have h := loginRun_isSome env (tries + 1) 0 (by omega) (by omega)
  obtain ⟨r, hr⟩ := Option.isSome_iff_exists.mp h
  rw [login]
  simp only [hr, Option.getD_some]

/-- Claim C8: `login` attempts to locate and fill the credential fields at
most `tries = 20` times, sleeping (`time.sleep(2)`) on each element-not-found
attempt; exhausting the bound returns silently, with nothing submitted and no
failure signalled; a successful fill-and-submit leaves the loop at that
attempt; and in both cases the unconditional `time.sleep(3)` pause runs
before returning. -/
theorem c8_login_retry_bound (env : LoginEnv) :
    tries = 20 ∧
    (login env).finalPause = true ∧
    ((∀ i, i < tries → env.fieldsReady i = false) →
      login env =
        { submittedAt := none, retrySleeps := tries, finalPause := true }) ∧
    (∀ i, (login env).submittedAt = some i →
      i < tries ∧ env.fieldsReady i = true ∧ (login env).retrySleeps = i) := by
  refine ⟨rfl, rfl, ?_, ?_⟩
  · intro hall
    rw [login]
    simp only [loginRun_all_fail env hall (tries + 1) 0 (by omega) (by omega),
      Option.getD_some]
  · intro i hsub
    have hrun := loginResult_spec env
    rw [hsub] at hrun
    exact loginRun_submitted env (tries + 1) 0 i (login env).retrySleeps hrun

/-- An always-failing login page for the witness. -/
def envLoginDown : LoginEnv := { fieldsReady := fun _ => false }

theorem c8_login_retry_bound_witness :
    login envLoginDown =
      { submittedAt := none, retrySleeps := tries, finalPause := true } :=
  (c8_login_retry_bound envLoginDown).2.2.1 (fun _ _ => rfl)

/-! ### Helper lemmas about `str.replace` and substring occurrence -/

theorem containsSub_false_iff (pat s : List Char) :
    containsSub pat s = false ↔
      ∀ k, k ≤ s.length → pat.isPrefixOf (s.drop k) = false := by
  constructor
  · intro h k hk
    by_contra hc
    rw [Bool.not_eq_false] at hc
    have : containsSub pat s = true := by
      rw [containsSub, List.any_eq_true]
      exact ⟨k, List.mem_range.mpr (by omega), hc⟩
    rw [this] at h
    exact Bool.true_eq_false.mp h
  · intro h
    by_contra hc
    rw [Bool.not_eq_false, containsSub, List.any_eq_true] at hc
    obtain ⟨k, hk, hp⟩ := hc
    have hk' : k ≤ s.length := by
      have := List.mem_range.mp hk
      omega
    rw [h k hk'] at hp
    exact Bool.false_eq_true.mp hp

theorem containsSub_tail (pat : List Char) (c : Char) (s : List Char)
    (h : containsSub pat (c :: s) = false) : containsSub pat s = false := by
  rw [containsSub_false_iff] at h ⊢
  intro k hk
  have := h (k + 1) (by simp; omega)
  rwa [List.drop_succ_cons] at this

/-- When the pattern occurs nowhere in `s`, `replace` returns `s` unchanged. -/
theorem replaceAllAux_no_occurrence (pat rep : List Char) :
    ∀ f s, containsSub pat s = false → replaceAllAux pat rep f s = s := by
  intro f
  induction f with
  | zero => intro s _; rfl
  | succ f ih =>
    intro s h
    cases s with
    | nil => rfl
    | cons c s =>
      have h0 : pat.isPrefixOf (c :: s) = false := by
        have := (containsSub_false_iff pat (c :: s)).mp h 0 (by omega)
        rwa [List.drop_zero] at this
      rw [replaceAllAux, h0]
      simp only [Bool.and_false, Bool.false_eq_true, if_false]
      rw [ih s (containsSub_tail pat c s h)]

/-- Removing a nonempty leading pattern: `replace` consumes the pattern at
position 0 and, when the pattern occurs nowhere in the remainder, leaves the
remainder unchanged. -/
theorem replaceAllAux_strip_leading (p : Char) (ps rest : List Char) (f : Nat)
    (h : containsSub (p :: ps) rest = false) :
    replaceAllAux (p :: ps) [] (f + 1) ((p :: ps) ++ rest) = rest := by
  have hpre : (p :: ps).isPrefixOf ((p :: ps) ++ rest) = true := by
    rw [ List.isPrefixOf_iff_prefix]
    exact List.prefix_append _ _
  rw [List.cons_append] at hpre ⊢
  rw [replaceAllAux, hpre]
  simp only [List.isEmpty_cons, Bool.not_false, Bool.true_and, if_true, List.nil_append]
  have hdrop : (p :: (ps ++ rest)).drop (p :: ps).length = rest := by
    rw [← List.cons_append, List.drop_left]
  rw [hdrop, replaceAllAux_no_occurrence (p :: ps) [] f rest h]

/-- `replace` with a nonempty pattern on `pat ++ rest`, the pattern absent
from `rest`, returns `rest` (used for the `os.getcwd() + "\\"` strip). -/
theorem replaceAll_strip_leading (pat rest : List Char) (hp : pat ≠ [])
    (h : containsSub pat rest = false) :
    replaceAll pat [] (pat ++ rest) = rest := by
  cases pat with
  | nil => exact absurd rfl hp
  | cons p ps =>
    rw [replaceAll]
    have hlen : ((p :: ps) ++ rest).length = (ps.length + rest.length) + 1 := by
      simp [List.length_append]
    rw [hlen]
    exact replaceAllAux_strip_leading p ps rest (ps.length + rest.length) h

/-- A borderless pattern (no proper suffix of it is also a prefix of it)
that occurs nowhere in `s` is not a prefix of `s ++ pat` for nonempty `s`:
an occurrence could neither fit inside `s` nor straddle the boundary. -/
theorem no_straddle (pat s : List Char) (hs : s ≠ [])
    (hb : ∀ j, 0 < j → j < pat.length → (pat.drop j).isPrefixOf pat = false)
    (h : containsSub pat s = false) :
    pat.isPrefixOf (s ++ pat) = false := by
  by_contra hc
  rw [Bool.not_eq_false, List.isPrefixOf_iff_prefix] at hc
  have heq : pat = (s ++ pat).take pat.length := List.prefix_iff_eq_take.mp hc
  rw [List.take_append_eq_append_take] at heq
  by_cases hlen : pat.length ≤ s.length
  · have h0 : pat.length - s.length = 0 := by omega
    rw [h0, List.take_zero, List.append_nil] at heq
    have hpre : pat.isPrefixOf s = true := by
      rw [ List.isPrefixOf_iff_prefix, heq]
      exact List.take_prefix _ _
    have := (containsSub_false_iff pat s).mp h 0 (by omega)
    rw [List.drop_zero, hpre] at this
    exact Bool.true_eq_false.mp this
  · push_neg at hlen
    rw [List.take_of_length_le (by omega)] at heq
    have hdrop : pat.drop s.length = pat.take (pat.length - s.length) := by
      conv_lhs => rw [heq]
      rw [List.drop_left]
    have hpre2 : (pat.drop s.length).isPrefixOf pat = true := by
      rw [ List.isPrefixOf_iff_prefix, hdrop]
      exact List.take_prefix _ _
    have hcontra := hb s.length (List.length_pos.mpr hs) hlen
    rw [hpre2] at hcontra
    exact Bool.true_eq_false.mp hcontra

theorem replaceAllAux_nil (pat rep : List Char) :
    ∀ f, replaceAllAux pat rep f [] = [] := by
  intro f
  cases f <;> rfl

/-- Removing a borderless nonempty trailing pattern that occurs nowhere in
`id`: `replace` walks through `id` without a match and then consumes the
final pattern (used for the `".csv"` strip). -/
theorem replaceAllAux_strip_trailing (pat : List Char) (hp : pat ≠ [])
    (hb : ∀ j, 0 < j → j < pat.length → (pat.drop j).isPrefixOf pat = false) :
    ∀ id f, (id ++ pat).length ≤ f → containsSub pat id = false →
      replaceAllAux pat [] f (id ++ pat) = id := by
  intro id
  induction id with
  | nil =>
    intro f hf _
    have hplen : 0 < pat.length := List.length_pos.mpr hp
    rw [List.nil_append] at hf ⊢
    cases f with
    | zero => omega
    | succ f =>
      cases pat with
      | nil => exact absurd rfl hp
      | cons p ps =>
        have hpre : (p :: ps).isPrefixOf (p :: ps) = true := by
          rw [ List.isPrefixOf_iff_prefix]
        rw [replaceAllAux, hpre]
        simp only [List.isEmpty_cons, Bool.not_false, Bool.true_and, if_true,
          List.nil_append]
        rw [List.drop_length, replaceAllAux_nil]
  | cons c id ih =>
    intro f hf h
    cases f with
    | zero =>
      rw [List.length_append, List.length_cons] at hf
      omega
    | succ f =>
      have hnotpre : pat.isPrefixOf ((c :: id) ++ pat) = false :=
        no_straddle pat (c :: id) (List.cons_ne_nil c id) hb h
      rw [List.cons_append] at hnotpre ⊢
      rw [replaceAllAux, hnotpre]
      simp only [Bool.and_false, Bool.false_eq_true, if_false]
      rw [ih f ?_ (containsSub_tail pat c id h)]
      rw [List.cons_append, List.length_cons] at hf
      omega

/-- The pattern `".csv"` is borderless: none of its proper suffixes is a
prefix of it. -/
theorem csvExt_borderless :
    ∀ j, 0 < j → j < csvExt.length → (csvExt.drop j).isPrefixOf csvExt = false := by
  intro j h1 h2
  have h4 : j < 4 := by simpa [csvExt] using h2
  interval_cases j <;> decide

/-- The two `str.replace` calls of the scanner recover the bare identifier
from the globbed path, provided `".csv"` occurs nowhere inside the identifier
and the directory pattern occurs nowhere in the file name. -/
theorem scanner_entry (cwd id : List Char)
    (h1 : containsSub csvExt id = false)
    (h2 : containsSub (cwd ++ bslash) (id ++ csvExt) = false) :
    replaceAll csvExt [] (replaceAll (cwd ++ bslash) [] (cwd ++ bslash ++ (id ++ csvExt))) = id := by
  have hassoc : cwd ++ bslash ++ (id ++ csvExt) = (cwd ++ bslash) ++ (id ++ csvExt) := by
    rw [List.append_assoc]
  rw [hassoc,
    replaceAll_strip_leading (cwd ++ bslash) (id ++ csvExt) (by simp [bslash]) h2,
    replaceAll]
  exact replaceAllAux_strip_trailing csvExt (by decide) csvExt_borderless id
    (id ++ csvExt).length (Nat.le_refl _) h1

/-- For every well-behaved file `<id>.csv` among the directory listing, the
scanner output holds the bare identifier `<id>`. -/
theorem get_csv_list_mem (cwd id : List Char) (files : List (List Char))
    (hfile : (id ++ csvExt) ∈ files)
    (hdot : (id ++ csvExt).take 1 ≠ ['.'])
    (h1 : containsSub csvExt id = false)
    (h2 : containsSub (cwd ++ bslash) (id ++ csvExt) = false) :
    id ∈ get_csv_list cwd files := by
  simp only [get_csv_list]
  have hmem1 : (id ++ csvExt) ∈
      files.filter (fun f => csvExt.isSuffixOf f && f.take 1 ≠ ['.']) := by
    rw [List.mem_filter]
    refine ⟨hfile, ?_⟩
    rw [Bool.and_eq_true]
    constructor
    · rw [ List.isSuffixOf_iff_suffix]
      exact List.suffix_append id csvExt
    · exact decide_eq_true hdot
  have hmem2 := List.mem_map_of_mem (fun f => cwd ++ bslash ++ f) hmem1
  have hmem3 := List.mem_map_of_mem (fun sub => replaceAll (cwd ++ bslash) [] sub) hmem2
  have hmem4 := List.mem_map_of_mem (fun sub => replaceAll csvExt [] sub) hmem3
  simp only at hmem4
  rwa [scanner_entry cwd id h1 h2] at hmem4

/-- Membership in the driver's missing list is exactly membership in the
universe together with absence from the scanned list. -/
theorem missingOf_mem_iff (univ : List (List Char)) (cwd : List Char) (fs : FS)
    (x : List Char) :
    x ∈ missingOf univ cwd fs ↔
      x ∈ univ ∧ (get_csv_list cwd (fs.destDir.map Prod.fst)).contains x = false := by
  rw [missingOf, List.mem_filter]
  constructor
  · intro h
    refine ⟨h.1, ?_⟩
    have := h.2
    rwa [Bool.not_eq_true'] at this
  · intro h
    refine ⟨h.1, ?_⟩
    rw [Bool.not_eq_true']
    exact h.2

/-! ### Claim theorems: the inventory scanner -/

/-- Claim C6 counterexample: the claim states that the scanner returns, for
every file `<id>.csv` in the output directory, the bare identifier `<id>`.
For the identifier `A.csv` (file `A.csv.csv`) it does not: `str.replace`
removes every occurrence of `".csv"`, so the scanner returns `A` instead,
and the driver would re-download the feeder `A.csv` although its output
file is present. -/
theorem c6_counterexample :
    (['A', '.', 'c', 's', 'v'] ++ csvExt) ∈ [['A', '.', 'c', 's', 'v', '.', 'c', 's', 'v']] ∧
    ['A', '.', 'c', 's', 'v'] ∉
      get_csv_list ['C', ':'] [['A', '.', 'c', 's', 'v', '.', 'c', 's', 'v']] ∧
    get_csv_list ['C', ':'] [['A', '.', 'c', 's', 'v', '.', 'c', 's', 'v']] = [['A']] ∧
    ['A', '.', 'c', 's', 'v'] ∈
      missingOf [['A', '.', 'c', 's', 'v']] ['C', ':']
        { downloadDir := [],
          destDir := [(['A', '.', 'c', 's', 'v', '.', 'c', 's', 'v'], [['1']])] } := by
  refine ⟨by decide, by decide, by decide, by decide⟩

/-- Claim C6 (amended): for every file `<id>.csv` of the output directory
whose identifier contains no occurrence of `".csv"`, whose name does not
contain the pattern `cwd ++ "\"` and does not begin with a dot, the scanner
returns the bare identifier `<id>`; the driver's missing list is exactly the
universe minus the scanned set, so such a feeder already present is not
re-downloaded by a second pass. -/
theorem c6_scanner_strips_and_driver_skips (cwd id : List Char)
    (univ : List (List Char)) (fs : FS)
    (hfile : (id ++ csvExt) ∈ fs.destDir.map Prod.fst)
    (hdot : (id ++ csvExt).take 1 ≠ ['.'])
    (h1 : containsSub csvExt id = false)
    (h2 : containsSub (cwd ++ bslash) (id ++ csvExt) = false) :
    id ∈ get_csv_list cwd (fs.destDir.map Prod.fst) ∧
    id ∉ missingOf univ cwd fs ∧
    ∀ x, x ∈ missingOf univ cwd fs ↔
      x ∈ univ ∧ (get_csv_list cwd (fs.destDir.map Prod.fst)).contains x = false := by
  have hm := get_csv_list_mem cwd id (fs.destDir.map Prod.fst) hfile hdot h1 h2
  refine ⟨hm, ?_, fun x => missingOf_mem_iff univ cwd fs x⟩
  intro hmem
  have hfalse := ((missingOf_mem_iff univ cwd fs id).mp hmem).2
  rw [List.contains, List.elem_iff.mpr hm] at hfalse
  exact Bool.true_eq_false.mp hfalse

/-- Concrete output directory for the C6 witness: it holds `A.csv`. -/
def fsScanW : FS := { downloadDir := [], destDir := [(csvName ['A'], [['1']])] }

theorem c6_scanner_strips_witness :
    ((['A'] ++ csvExt) ∈ fsScanW.destDir.map Prod.fst ∧
      (['A'] ++ csvExt).take 1 ≠ ['.'] ∧
      containsSub csvExt ['A'] = false ∧
      containsSub (['C', ':'] ++ bslash) (['A'] ++ csvExt) = false) ∧
    (['A'] ∈ get_csv_list ['C', ':'] (fsScanW.destDir.map Prod.fst) ∧
      ['A'] ∉ missingOf [['A']] ['C', ':'] fsScanW ∧
      ∀ x, x ∈ missingOf [['A']] ['C', ':'] fsScanW ↔
        x ∈ [['A']] ∧
          (get_csv_list ['C', ':'] (fsScanW.destDir.map Prod.fst)).contains x = false) :=
  ⟨⟨by decide, by decide, by decide, by decide⟩,
    c6_scanner_strips_and_driver_skips ['C', ':'] ['A'] [['A']] fsScanW
      (by decide) (by decide) (by decide) (by decide)⟩
